import Mathlib

set_option maxRecDepth 8192

/-!
Shallow embedding of the Universal Machine interpreter (src/src/main.rs).

Machine words are modelled as `Nat` with an explicit `% 2^32` wherever the
Rust code wraps a `u32`; the sparse `HashMap<usize, Vec<u32>>` memory is a
function `Nat → Option (List Nat)`; the `Vec<usize>` free list is a `List Nat`
whose head is the vector's end (so `push` is `cons` and `pop` takes the head);
the stdin stream is a `List Nat` of byte values and stdout a `List Nat` of
emitted byte values.  Rust panics (indexing a missing `HashMap` key, indexing a
`Vec` out of bounds, `wrapping_div` by zero) are the `Halted.panic` outcome.
-/

namespace UM

/-- Recogniser for the byte sequences that form valid UTF-8 (RFC 3629).
Rust's `Read::read_to_string` returns `Ok` only when the whole stream it read
is valid UTF-8, so the `In` arm of the interpreter needs this predicate. -/
def validUtf8 : List Nat → Bool
  | [] => true
  | b :: rest =>
    if b ≤ 0x7F then validUtf8 rest
    else if 0xC2 ≤ b ∧ b ≤ 0xDF then
      match rest with
      | b2 :: rest2 => decide (0x80 ≤ b2 ∧ b2 ≤ 0xBF) && validUtf8 rest2
      | [] => false
    else if b = 0xE0 then
      match rest with
      | b2 :: b3 :: rest3 =>
        decide (0xA0 ≤ b2 ∧ b2 ≤ 0xBF) && decide (0x80 ≤ b3 ∧ b3 ≤ 0xBF) && validUtf8 rest3
      | _ => false
    else if b = 0xED then
      match rest with
      | b2 :: b3 :: rest3 =>
        decide (0x80 ≤ b2 ∧ b2 ≤ 0x9F) && decide (0x80 ≤ b3 ∧ b3 ≤ 0xBF) && validUtf8 rest3
      | _ => false
    else if (0xE1 ≤ b ∧ b ≤ 0xEC) ∨ b = 0xEE ∨ b = 0xEF then
      match rest with
      | b2 :: b3 :: rest3 =>
        decide (0x80 ≤ b2 ∧ b2 ≤ 0xBF) && decide (0x80 ≤ b3 ∧ b3 ≤ 0xBF) && validUtf8 rest3
      | _ => false
    else if b = 0xF0 then
      match rest with
      | b2 :: b3 :: b4 :: rest4 =>
        decide (0x90 ≤ b2 ∧ b2 ≤ 0xBF) && decide (0x80 ≤ b3 ∧ b3 ≤ 0xBF) &&
          decide (0x80 ≤ b4 ∧ b4 ≤ 0xBF) && validUtf8 rest4
      | _ => false
    else if 0xF1 ≤ b ∧ b ≤ 0xF3 then
      match rest with
      | b2 :: b3 :: b4 :: rest4 =>
        decide (0x80 ≤ b2 ∧ b2 ≤ 0xBF) && decide (0x80 ≤ b3 ∧ b3 ≤ 0xBF) &&
          decide (0x80 ≤ b4 ∧ b4 ≤ 0xBF) && validUtf8 rest4
      | _ => false
    else if b = 0xF4 then
      match rest with
      | b2 :: b3 :: b4 :: rest4 =>
        decide (0x80 ≤ b2 ∧ b2 ≤ 0x8F) && decide (0x80 ≤ b3 ∧ b3 ≤ 0xBF) &&
          decide (0x80 ≤ b4 ∧ b4 ≤ 0xBF) && validUtf8 rest4
      | _ => false
    else false

/-- Model of `io::stdin().read_to_string(&mut buffer)` applied to the whole
remaining stdin stream: it always consumes the entire stream, and returns
`some length` (the number of bytes read, which is also `buffer.len()`) when
the stream is valid UTF-8, `none` (the `Err` case) otherwise. -/
def read_to_string (input : List Nat) : Option Nat :=
  if validUtf8 input then some input.length else none

/-- Model of `u32::from_be_bytes` on four byte values: big-endian composition.
The `% 256` models the `u8` type of each buffer cell. -/
def u32_from_be_bytes (b0 b1 b2 b3 : Nat) : Nat :=
  b0 % 256 * 2 ^ 24 + b1 % 256 * 2 ^ 16 + b2 % 256 * 2 ^ 8 + b3 % 256

/-- The loader `read_program` after a successful `File::open`, applied to the
file's byte stream: `read_exact` fills a 4-byte buffer while it can, each
buffer is decoded with `u32::from_be_bytes` and pushed; when fewer than 4
bytes remain `read_exact` returns `Err`, the `while let` loop simply stops
(the trailing 1 to 3 bytes are dropped), and the function returns
`Ok(instructions)`.  The only `Err` the Rust function can return comes from
`File::open`, which is outside the byte-stream model. -/
def read_program : List Nat → List Nat
  | b0 :: b1 :: b2 :: b3 :: rest => u32_from_be_bytes b0 b1 b2 b3 :: read_program rest
  | _ => []

/-- Modelled from the spec (section 4.1), for comparison with `read_program`:
the spec's loader fails with `BadImage` (here `none`) when the byte count is
not a multiple of 4, and otherwise returns one big-endian word per 4-byte
group. -/
def load_spec (bytes : List Nat) : Option (List Nat) :=
  if bytes.length % 4 = 0 then some (read_program bytes) else none

/-- The decoded instruction type, mirroring `enum Operator`.  Register indices
are `Fin 8` (the decoder masks with `& 7`, so they are always below 8; the
Rust enum stores them as `usize`). -/
inductive Operator where
  | CondMove (a b c : Fin 8)
  | Read (a b c : Fin 8)
  | Write (a b c : Fin 8)
  | Add (a b c : Fin 8)
  | Mul (a b c : Fin 8)
  | Div (a b c : Fin 8)
  | NotAnd (a b c : Fin 8)
  | Halt
  | Alloc (b c : Fin 8)
  | Dealloc (c : Fin 8)
  | Out (c : Fin 8)
  | In (c : Fin 8)
  | Load (b c : Fin 8)
  | Immediate (a : Fin 8) (value : Nat)
  | Unsupported (opcode : Nat)
  deriving DecidableEq

/-- The decoder, mirroring `impl From<u32> for Operator`.  `bit_pattern` is a
word (a `u32`, so below `2^32` in every reachable state). -/
def Operator.fromU32 (bit_pattern : Nat) : Operator :=
  let a : Fin 8 := ⟨bit_pattern >>> 6 &&& 7, Nat.lt_succ_of_le Nat.and_le_right⟩
  let b : Fin 8 := ⟨bit_pattern >>> 3 &&& 7, Nat.lt_succ_of_le Nat.and_le_right⟩
  let c : Fin 8 := ⟨bit_pattern &&& 7, Nat.lt_succ_of_le Nat.and_le_right⟩
  match bit_pattern >>> 28 with
  | 0 => Operator.CondMove a b c
  | 1 => Operator.Read a b c
  | 2 => Operator.Write a b c
  | 3 => Operator.Add a b c
  | 4 => Operator.Mul a b c
  | 5 => Operator.Div a b c
  | 6 => Operator.NotAnd a b c
  | 7 => Operator.Halt
  | 8 => Operator.Alloc b c
  | 9 => Operator.Dealloc c
  | 10 => Operator.Out c
  | 11 => Operator.In c
  | 12 => Operator.Load b c
  | 13 => Operator.Immediate ⟨bit_pattern >>> 25 &&& 7, Nat.lt_succ_of_le Nat.and_le_right⟩
      (bit_pattern &&& 33554431)
  | opcode => Operator.Unsupported opcode

/-- The machine state, mirroring `struct UniversalMachine`. -/
structure UniversalMachine where
  instruction_pointer : Nat
  registers : Fin 8 → Nat
  memory : Nat → Option (List Nat)
  next_mem : Nat
  free_mem : List Nat

/-- Model of `HashMap::insert`. -/
def insertMem (m : Nat → Option (List Nat)) (k : Nat) (v : List Nat) :
    Nat → Option (List Nat) :=
  fun x => if x = k then some v else m x

/-- Model of `HashMap::remove` (the removed value is not used). -/
def removeMem (m : Nat → Option (List Nat)) (k : Nat) : Nat → Option (List Nat) :=
  fun x => if x = k then none else m x

/-- Bytes written to stdout by `print!` with the char whose code point is
`b < 256` (the result of `registers[c] as u8 as char`): `print!` encodes the
char in UTF-8, so code points 128 to 255 come out as two bytes. -/
def charUtf8 (b : Nat) : List Nat :=
  if b < 128 then [b] else [0xC0 + b / 64, 0x80 + b % 64]

/-- How a run of the dispatch loop ends.  The first four cases are the `break`
paths of `run` (after which `run` returns normally and `main` returns
`Ok(())`); `panic` is any Rust panic raised inside the loop: fetching from a
missing segment 0 or past its end, `Read` from a missing identifier or out of
bounds, `Write` past the end of an existing platter, or `wrapping_div` by
zero.  A panic aborts the process with a non-zero status. -/
inductive Halted where
  | halt
  | writeFail (value : Nat) (reg : Nat)
  | loadFail (reg : Nat)
  | unsupported (opcode : Nat)
  | panic
  deriving DecidableEq

/-- Result of one iteration of the dispatch loop: either the loop continues
with a new state (having emitted `output` bytes and left `input` as the
remaining stdin), or it stops with a `Halted` outcome. -/
inductive StepResult where
  | next (m : UniversalMachine) (output : List Nat) (input : List Nat)
  | stop (reason : Halted) (output : List Nat) (input : List Nat)

/-- The fetch `memory[&0][instruction_pointer]` together with decoding:
`none` exactly when the fetch panics (segment 0 absent, or the instruction
pointer not below its length). -/
def fetched (m : UniversalMachine) : Option Operator :=
  match m.memory 0 with
  | none => none
  | some seg =>
    if h : m.instruction_pointer < seg.length then
      some (Operator.fromU32 (seg.get ⟨m.instruction_pointer, h⟩))
    else none

/-- The body of the `match operator` dispatch, applied to the machine whose
instruction pointer has already been advanced past the fetched instruction
(the Rust loop increments `instruction_pointer` before dispatching). -/
def execute (input : List Nat) (m : UniversalMachine) : Operator → StepResult
  | Operator.CondMove a b c =>
    if m.registers c ≠ 0 then
      StepResult.next { m with registers := Function.update m.registers a (m.registers b) } [] input
    else StepResult.next m [] input
  | Operator.Read a b c =>
    match m.memory (m.registers b) with
    | some platter =>
      if h : m.registers c < platter.length then
        StepResult.next
          { m with registers := Function.update m.registers a (platter.get ⟨m.registers c, h⟩) }
          [] input
      else StepResult.stop Halted.panic [] input
    | none => StepResult.stop Halted.panic [] input
  | Operator.Write a b c =>
    match m.memory (m.registers a) with
    | some allocation =>
      if m.registers b < allocation.length then
        StepResult.next
          { m with memory := (insertMem m.memory (m.registers a) (allocation.set (m.registers b) (m.registers c))) } [] input
      else StepResult.stop Halted.panic [] input
    | none => StepResult.stop (Halted.writeFail (m.registers c) a.val) [] input
  | Operator.Add a b c =>
    StepResult.next
      { m with registers := Function.update m.registers a ((m.registers b + m.registers c) % 2 ^ 32) }
      [] input
  | Operator.Mul a b c =>
    StepResult.next
      { m with registers := Function.update m.registers a ((m.registers b * m.registers c) % 2 ^ 32) }
      [] input
  | Operator.Div a b c =>
    if m.registers c = 0 then StepResult.stop Halted.panic [] input
    else
      StepResult.next
        { m with registers := Function.update m.registers a (m.registers b / m.registers c) }
        [] input
  | Operator.NotAnd a b c =>
    StepResult.next
      { m with registers :=
          Function.update m.registers a ((m.registers b &&& m.registers c) ^^^ (2 ^ 32 - 1)) }
      [] input
  | Operator.Halt => StepResult.stop Halted.halt [] input
  | Operator.Alloc b c =>
    match m.free_mem with
    | free_index :: rest =>
      StepResult.next
        { m with memory := insertMem m.memory free_index (List.replicate (m.registers c) 0),
                 registers := Function.update m.registers b (free_index % 2 ^ 32),
                 free_mem := rest } [] input
    | [] =>
      StepResult.next
        { m with memory := insertMem m.memory m.next_mem (List.replicate (m.registers c) 0),
                 registers := Function.update m.registers b (m.next_mem % 2 ^ 32),
                 next_mem := m.next_mem + 1 } [] input
  | Operator.Dealloc c =>
    StepResult.next
      { m with memory := removeMem m.memory (m.registers c),
               free_mem := m.registers c :: m.free_mem } [] input
  | Operator.Out c => StepResult.next m (charUtf8 (m.registers c % 256)) input
  | Operator.In c =>
    match read_to_string input with
    | some length =>
      if length = 1 then
        StepResult.next { m with registers := Function.update m.registers c (input.headD 0) } [] []
      else StepResult.next { m with registers := Function.update m.registers c 0 } [] []
    | none => StepResult.next { m with registers := Function.update m.registers c 0 } [] []
  | Operator.Load b c =>
    if m.registers b ≠ 0 then
      match m.memory (m.registers b) with
      | some program =>
        StepResult.next
          { m with memory := insertMem m.memory 0 program,
                   instruction_pointer := m.registers c } [] input
      | none => StepResult.stop (Halted.loadFail b.val) [] input
    else StepResult.next { m with instruction_pointer := m.registers c } [] input
  | Operator.Immediate a value =>
    StepResult.next { m with registers := Function.update m.registers a value } [] input
  | Operator.Unsupported opcode => StepResult.stop (Halted.unsupported opcode) [] input

/-- One iteration of `loop` in `UniversalMachine::run`: fetch, decode, advance
the instruction pointer, dispatch. -/
def step (input : List Nat) (m : UniversalMachine) : StepResult :=
  match fetched m with
  | none => StepResult.stop Halted.panic [] input
  | some operator =>
    execute input { m with instruction_pointer := m.instruction_pointer + 1 } operator

/-- Fuel-bounded iteration of the dispatch loop: `none` when the fuel runs out
before the loop ends, otherwise the `Halted` outcome and the bytes written to
stdout along the way. -/
def run (fuel : Nat) (input : List Nat) (m : UniversalMachine) :
    Option (Halted × List Nat) :=
  match fuel with
  | 0 => none
  | fuel + 1 =>
    match step input m with
    | StepResult.next m2 out inp2 =>
      (run fuel inp2 m2).map (fun r => (r.1, out ++ r.2))
    | StepResult.stop reason out _ => some (reason, out)

/-- The process exit status as a function of how the dispatch loop ended:
every `break` path of `run` returns normally, after which `main` prints a
newline and returns `Ok(())`, so the process exits 0; a Rust panic aborts the
process with status 101. -/
def exitCode : Halted → Nat
  | Halted.panic => 101
  | _ => 0

/-- The machine `main` builds before calling `run`: the loaded program is
installed as segment 0 of an otherwise empty memory, the registers and the
instruction pointer are zero, the next-fresh counter starts at 1 and the free
list is empty. -/
def initialMachine (program : List Nat) : UniversalMachine :=
  { instruction_pointer := 0
    registers := fun _ => 0
    memory := insertMem (fun _ => none) 0 program
    next_mem := 1
    free_mem := [] }

/-! Concrete machine states used to instantiate the claim theorems.  Word
0xC000000A decodes to Load with B = 1 and C = 2; 0xB0000000 to In with C = 0;
0xA0000000 to Out with C = 0; 0x90000000 and 0x90000001 to Dealloc with C = 0
and C = 1; 0x8000000A and 0x8000000B to Alloc with B = 1, C = 2 and B = 1,
C = 3; 0x3000000A to Add with A = 0, B = 1, C = 2. -/

/-- Machine about to execute LoadProgram with R[1] = 1 (a live identifier
holding the platter [42, 43]) and R[2] = 5. -/
def loadMachine : UniversalMachine :=
  { instruction_pointer := 0
    registers := Function.update (Function.update (fun _ => 0) 1 1) 2 5
    memory := insertMem (insertMem (fun _ => none) 0 [0xC000000A]) 1 [42, 43]
    next_mem := 2
    free_mem := [] }

/-- Machine about to execute Input into R[0]. -/
def inMachine : UniversalMachine := initialMachine [0xB0000000]

/-- A second copy of `inMachine`, reserved for the one-byte-consumption
claim. -/
def inMachine2 : UniversalMachine := initialMachine [0xB0000000]

/-- Machine about to execute Output of R[0] = 200. -/
def outMachine : UniversalMachine :=
  { instruction_pointer := 0
    registers := Function.update (fun _ => 0) 0 200
    memory := insertMem (fun _ => none) 0 [0xA0000000]
    next_mem := 1
    free_mem := [] }

/-- Machine about to execute Dealloc with R[0] = 0. -/
def deallocMachine : UniversalMachine := initialMachine [0x90000000]

/-- Machine about to run Alloc R1 (size R[2] = 4); Dealloc R1; Alloc R1
(size R[3] = 2). -/
def allocMachine : UniversalMachine :=
  { instruction_pointer := 0
    registers := Function.update (Function.update (fun _ => 0) 2 4) 3 2
    memory := insertMem (fun _ => none) 0 [0x8000000A, 0x90000001, 0x8000000B]
    next_mem := 1
    free_mem := [] }

/-- The state after the first Alloc of `allocMachine`. -/
def allocMachine2 : UniversalMachine :=
  { instruction_pointer := 1
    registers := Function.update allocMachine.registers 1 1
    memory := insertMem allocMachine.memory 1 [0, 0, 0, 0]
    next_mem := 2
    free_mem := [] }

/-- The state after the Dealloc of `allocMachine2`. -/
def allocMachine3 : UniversalMachine :=
  { instruction_pointer := 2
    registers := allocMachine2.registers
    memory := removeMem allocMachine2.memory 1
    next_mem := 2
    free_mem := [1] }

/-- The state after the second Alloc, at `allocMachine3`. -/
def allocMachine4 : UniversalMachine :=
  { instruction_pointer := 3
    registers := Function.update allocMachine2.registers 1 1
    memory := insertMem allocMachine3.memory 1 [0, 0]
    next_mem := 2
    free_mem := [] }

/-- Machine about to execute Add R0 R1 R2 with R[1] = 3 and R[2] = 4. -/
def addMachine : UniversalMachine :=
  { instruction_pointer := 0
    registers := Function.update (Function.update (fun _ => 0) 1 3) 2 4
    memory := insertMem (fun _ => none) 0 [0x3000000A]
    next_mem := 1
    free_mem := [] }

/-! Characterisations of one dispatch step, one per opcode, used by the claim
theorems below.  Each takes the fetched-and-decoded instruction as a
hypothesis and computes the exact step result. -/

theorem step_load_zero (input : List Nat) (m : UniversalMachine) (b c : Fin 8)
    (hf : fetched m = some (Operator.Load b c)) (hb : m.registers b = 0) :
    step input m = StepResult.next { m with instruction_pointer := m.registers c } [] input := by
  simp [step, hf, execute, hb]

theorem step_load_copy (input : List Nat) (m : UniversalMachine) (b c : Fin 8)
    (p : List Nat) (hf : fetched m = some (Operator.Load b c)) (hb : m.registers b ≠ 0)
    (hp : m.memory (m.registers b) = some p) :
    step input m =
      StepResult.next
        { m with memory := insertMem m.memory 0 p, instruction_pointer := m.registers c }
        [] input := by
  simp [step, hf, execute, hb, hp]

theorem step_alloc_fresh (input : List Nat) (m : UniversalMachine) (b c : Fin 8)
    (hf : fetched m = some (Operator.Alloc b c)) (hfree : m.free_mem = []) :
    step input m =
      StepResult.next
        { m with instruction_pointer := m.instruction_pointer + 1,
                 memory := insertMem m.memory m.next_mem (List.replicate (m.registers c) 0),
                 registers := Function.update m.registers b (m.next_mem % 2 ^ 32),
                 next_mem := m.next_mem + 1 } [] input := by
  simp [step, hf, execute, hfree]

theorem step_alloc_reuse (input : List Nat) (m : UniversalMachine) (b c : Fin 8)
    (f : Nat) (rest : List Nat)
    (hf : fetched m = some (Operator.Alloc b c)) (hfree : m.free_mem = f :: rest) :
    step input m =
      StepResult.next
        { m with instruction_pointer := m.instruction_pointer + 1,
                 memory := insertMem m.memory f (List.replicate (m.registers c) 0),
                 registers := Function.update m.registers b (f % 2 ^ 32),
                 free_mem := rest } [] input := by
  simp [step, hf, execute, hfree]

theorem step_dealloc (input : List Nat) (m : UniversalMachine) (c : Fin 8)
    (hf : fetched m = some (Operator.Dealloc c)) :
    step input m =
      StepResult.next
        { m with instruction_pointer := m.instruction_pointer + 1,
                 memory := removeMem m.memory (m.registers c),
                 free_mem := m.registers c :: m.free_mem } [] input := by
  simp [step, hf, execute]

theorem step_out (input : List Nat) (m : UniversalMachine) (c : Fin 8)
    (hf : fetched m = some (Operator.Out c)) :
    step input m =
      StepResult.next { m with instruction_pointer := m.instruction_pointer + 1 }
        (charUtf8 (m.registers c % 256)) input := by
  simp [step, hf, execute]

theorem step_add (input : List Nat) (m : UniversalMachine) (a b c : Fin 8)
    (hf : fetched m = some (Operator.Add a b c)) :
    step input m =
      StepResult.next
        { m with instruction_pointer := m.instruction_pointer + 1,
                 registers :=
                   Function.update m.registers a ((m.registers b + m.registers c) % 2 ^ 32) }
        [] input := by
  simp [step, hf, execute]

theorem step_mul (input : List Nat) (m : UniversalMachine) (a b c : Fin 8)
    (hf : fetched m = some (Operator.Mul a b c)) :
    step input m =
      StepResult.next
        { m with instruction_pointer := m.instruction_pointer + 1,
                 registers :=
                   Function.update m.registers a ((m.registers b * m.registers c) % 2 ^ 32) }
        [] input := by
  simp [step, hf, execute]

theorem step_notand (input : List Nat) (m : UniversalMachine) (a b c : Fin 8)
    (hf : fetched m = some (Operator.NotAnd a b c)) :
    step input m =
      StepResult.next
        { m with instruction_pointer := m.instruction_pointer + 1,
                 registers :=
                   Function.update m.registers a
                     ((m.registers b &&& m.registers c) ^^^ (2 ^ 32 - 1)) }
        [] input := by
  simp [step, hf, execute]

theorem step_immediate (input : List Nat) (m : UniversalMachine) (a : Fin 8) (v : Nat)
    (hf : fetched m = some (Operator.Immediate a v)) :
    step input m =
      StepResult.next
        { m with instruction_pointer := m.instruction_pointer + 1,
                 registers := Function.update m.registers a v } [] input := by
  simp [step, hf, execute]

/-- C1: executing LoadProgram B C with R[B] = 0 copies no platter and changes
no memory, only setting the instruction pointer to R[C]; with R[B] non-zero
and live, an element-wise equal copy of the platter at R[B] becomes segment 0,
the platter at R[B] itself is unchanged, every other identifier is unchanged,
the registers are unchanged, and the instruction pointer is set to R[C]. -/
theorem load_program_correct (input : List Nat) (m : UniversalMachine) (b c : Fin 8)
    (hf : fetched m = some (Operator.Load b c)) :
    (m.registers b = 0 →
      step input m = StepResult.next { m with instruction_pointer := m.registers c } [] input)
    ∧ (∀ p, m.registers b ≠ 0 → m.memory (m.registers b) = some p →
        step input m =
          StepResult.next
            { m with memory := insertMem m.memory 0 p, instruction_pointer := m.registers c }
            [] input
        ∧ insertMem m.memory 0 p 0 = some p
        ∧ insertMem m.memory 0 p (m.registers b) = m.memory (m.registers b)
        ∧ ∀ k, k ≠ 0 → insertMem m.memory 0 p k = m.memory k) := by
  refine ⟨fun hb => step_load_zero input m b c hf hb, fun p hb hp => ?_⟩
  refine ⟨step_load_copy input m b c p hf hb hp, ?_, ?_, fun k hk => ?_⟩
  · simp [insertMem]
  · simp [insertMem, hb, hp]
  · simp [insertMem, hk]

/-- Witness for C1 at `loadMachine`: the source platter [42, 43] at live
identifier R[1] = 1 is installed as segment 0, the original stays, and the
instruction pointer becomes R[2] = 5. -/
theorem load_program_correct_witness :
    loadMachine.registers 1 ≠ 0
    ∧ loadMachine.memory (loadMachine.registers 1) = some [42, 43]
    ∧ step [] loadMachine =
        StepResult.next
          { loadMachine with memory := insertMem loadMachine.memory 0 [42, 43],
                             instruction_pointer := loadMachine.registers 2 } [] []
    ∧ insertMem loadMachine.memory 0 [42, 43] (loadMachine.registers 1) =
        loadMachine.memory (loadMachine.registers 1) :=
  ⟨by decide, by decide,
   ((load_program_correct [] loadMachine 1 2 (by decide)).2 [42, 43] (by decide) (by decide)).1,
   ((load_program_correct [] loadMachine 1 2 (by decide)).2 [42, 43] (by decide)
     (by decide)).2.2.1⟩

/-- C2 (code bug): at end of stream, Input stores 0 into R[C], not
0xFFFFFFFF.  The machine `inMachine` is about to execute Input into R[0] with
empty stdin: read_to_string returns Ok(0), the length-1 test fails, and the
register is set to 0, after which execution continues. -/
theorem input_eof_gives_zero :
    read_to_string [] = some 0
    ∧ step [] inMachine =
        StepResult.next
          { inMachine with instruction_pointer := 1,
                           registers := Function.update inMachine.registers 0 0 } [] []
    ∧ Function.update inMachine.registers 0 0 0 ≠ 0xFFFFFFFF :=
  ⟨rfl, rfl, by decide⟩

/-- C3 (code bug): Input does not read one byte; it consumes the whole
remaining stdin stream via read_to_string.  With stdin [97, 98], the step
leaves an empty stream (both bytes consumed) and stores 0, not 97, into
R[0]. -/
theorem input_consumes_whole_stream :
    validUtf8 [97, 98] = true
    ∧ step [97, 98] inMachine2 =
        StepResult.next
          { inMachine2 with instruction_pointer := 1,
                            registers := Function.update inMachine2.registers 0 0 } [] []
    ∧ Function.update inMachine2.registers 0 0 0 ≠ 97 :=
  ⟨rfl, rfl, by decide⟩

/-- C4 (code bug): a run that ends on an unsupported opcode (an IllegalOp
fault, here opcode 14) takes the same `break` path as Halt, `run` returns,
and `main` returns Ok(()), so the process exits 0 — not the non-zero exit the
spec requires for faults. -/
theorem fault_exits_zero :
    run 2 [] (initialMachine [0xE0000000]) = some (Halted.unsupported 14, [])
    ∧ exitCode (Halted.unsupported 14) = 0
    ∧ exitCode Halted.halt = 0 := by decide

/-- C5 counterexample: with R[0] = 200 ≤ 255, Output does not emit exactly
the byte 200; it prints the char U+00C8, whose UTF-8 encoding is the two
bytes 195 and 136, and execution continues (no fault of any kind). -/
theorem output_truncates_counterexample :
    outMachine.registers 0 = 200
    ∧ step [] outMachine =
        StepResult.next { outMachine with instruction_pointer := 1 } [195, 136] []
    ∧ ([195, 136] : List Nat) ≠ [200] :=
  ⟨rfl, rfl, by decide⟩

/-- C5 amended: Output never faults, for any register value; it emits the
UTF-8 encoding of the code point R[C] mod 256 — the single byte R[C] mod 256
when that is below 128, and two bytes 0xC0 + b/64, 0x80 + b%64 (for
b = R[C] mod 256) otherwise. -/
theorem output_never_faults (input : List Nat) (m : UniversalMachine) (c : Fin 8)
    (hf : fetched m = some (Operator.Out c)) :
    step input m =
      StepResult.next { m with instruction_pointer := m.instruction_pointer + 1 }
        (charUtf8 (m.registers c % 256)) input
    ∧ (m.registers c % 256 < 128 → charUtf8 (m.registers c % 256) = [m.registers c % 256])
    ∧ (128 ≤ m.registers c % 256 →
        charUtf8 (m.registers c % 256) =
          [0xC0 + m.registers c % 256 / 64, 0x80 + m.registers c % 256 % 64]) := by
  refine ⟨step_out input m c hf, fun h => ?_, fun h => ?_⟩
  · simp [charUtf8, h]
  · simp [charUtf8, Nat.not_lt.mpr h]

/-- Witness for C5 at `outMachine`. -/
theorem output_never_faults_witness :
    fetched outMachine = some (Operator.Out 0)
    ∧ step [] outMachine =
        StepResult.next { outMachine with instruction_pointer := outMachine.instruction_pointer + 1 }
          (charUtf8 (outMachine.registers 0 % 256)) [] :=
  ⟨by decide, (output_never_faults [] outMachine 0 (by decide)).1⟩

/-- C6 counterexample: executing Dealloc with R[0] = 0 at `deallocMachine` is
not a fault — the step continues, segment 0 (present before the step) is
removed from memory, and the identifier 0 is pushed onto the free list. -/
theorem dealloc_zero_counterexample :
    deallocMachine.memory 0 = some [0x90000000]
    ∧ step [] deallocMachine =
        StepResult.next
          { deallocMachine with instruction_pointer := 1,
                                memory := removeMem deallocMachine.memory 0,
                                free_mem := [0] } [] []
    ∧ removeMem deallocMachine.memory 0 0 = none :=
  ⟨rfl, rfl, rfl⟩

/-- C6 amended: Dealloc C performs no validity check at all: for every value
of R[C] — including 0 and identifiers that are not live — it removes the
entry at R[C] from memory (a no-op removal when absent), pushes R[C] onto the
free list, and execution continues.  Consequently Dealloc with R[C] = 0
removes the program segment (the platter at identifier 0 is absent
afterwards) and 0 enters the free list. -/
theorem dealloc_unchecked (input : List Nat) (m : UniversalMachine) (c : Fin 8)
    (hf : fetched m = some (Operator.Dealloc c)) :
    step input m =
      StepResult.next
        { m with instruction_pointer := m.instruction_pointer + 1,
                 memory := removeMem m.memory (m.registers c),
                 free_mem := m.registers c :: m.free_mem } [] input
    ∧ removeMem m.memory (m.registers c) (m.registers c) = none
    ∧ (m.registers c = 0 →
        removeMem m.memory (m.registers c) 0 = none
          ∧ 0 ∈ m.registers c :: m.free_mem) := by
  refine ⟨step_dealloc input m c hf, ?_, fun h0 => ⟨?_, ?_⟩⟩
  · simp [removeMem]
  · simp [removeMem, h0]
  · simp [h0]

/-- Witness for C6 at `deallocMachine`. -/
theorem dealloc_unchecked_witness :
    fetched deallocMachine = some (Operator.Dealloc 0)
    ∧ step [] deallocMachine =
        StepResult.next
          { deallocMachine with
              instruction_pointer := deallocMachine.instruction_pointer + 1,
              memory := removeMem deallocMachine.memory (deallocMachine.registers 0),
              free_mem := deallocMachine.registers 0 :: deallocMachine.free_mem } [] []
    ∧ removeMem deallocMachine.memory (deallocMachine.registers 0)
        (deallocMachine.registers 0) = none :=
  ⟨by decide, (dealloc_unchecked [] deallocMachine 0 (by decide)).1,
   (dealloc_unchecked [] deallocMachine 0 (by decide)).2.1⟩

/-- C7: the allocation policy — Alloc pops the most recently freed identifier
when the free list is non-empty and otherwise issues the next-fresh counter
and increments it, in both cases installing a zero-initialised platter of the
requested length — and, as a consequence, the sequence
id1 = alloc(n); dealloc(id1); id2 = alloc(m) yields id2 = id1. -/
theorem alloc_policy_and_reuse :
    (∀ (input : List Nat) (m : UniversalMachine) (b c : Fin 8),
      fetched m = some (Operator.Alloc b c) →
      (∀ f rest, m.free_mem = f :: rest →
        step input m =
          StepResult.next
            { m with instruction_pointer := m.instruction_pointer + 1,
                     memory := insertMem m.memory f (List.replicate (m.registers c) 0),
                     registers := Function.update m.registers b (f % 2 ^ 32),
                     free_mem := rest } [] input)
      ∧ (m.free_mem = [] →
        step input m =
          StepResult.next
            { m with instruction_pointer := m.instruction_pointer + 1,
                     memory := insertMem m.memory m.next_mem (List.replicate (m.registers c) 0),
                     registers := Function.update m.registers b (m.next_mem % 2 ^ 32),
                     next_mem := m.next_mem + 1 } [] input))
    ∧ (∀ (m1 m2 m3 m4 : UniversalMachine) (i1 i2 i3 o1 o2 o3 r1 r2 r3 : List Nat)
        (b c c' : Fin 8),
        fetched m1 = some (Operator.Alloc b c) →
        step i1 m1 = StepResult.next m2 o1 r1 →
        fetched m2 = some (Operator.Dealloc b) →
        step i2 m2 = StepResult.next m3 o2 r2 →
        fetched m3 = some (Operator.Alloc b c') →
        step i3 m3 = StepResult.next m4 o3 r3 →
        m4.registers b = m2.registers b) := by
  constructor
  · intro input m b c hf
    exact ⟨fun f rest hfree => step_alloc_reuse input m b c f rest hf hfree,
           fun hfree => step_alloc_fresh input m b c hf hfree⟩
  · intro m1 m2 m3 m4 i1 i2 i3 o1 o2 o3 r1 r2 r3 b c c' hf1 h1 hf2 h2 hf3 h3
    have hreg2 : ∃ x, m2.registers b = x % 2 ^ 32 := by
      rcases hfree : m1.free_mem with _ | ⟨f, rest⟩
      · rw [step_alloc_fresh i1 m1 b c hf1 hfree] at h1
        injection h1 with hm2 _ _
        exact ⟨m1.next_mem, by rw [← hm2]; simp⟩
      · rw [step_alloc_reuse i1 m1 b c f rest hf1 hfree] at h1
        injection h1 with hm2 _ _
        exact ⟨f, by rw [← hm2]; simp⟩
    rw [step_dealloc i2 m2 b hf2] at h2
    injection h2 with hm3 _ _
    have hfree3 : m3.free_mem = m2.registers b :: m2.free_mem := by rw [← hm3]
    have hreg3 : m3.registers = m2.registers := by rw [← hm3]
    rw [step_alloc_reuse i3 m3 b c' (m2.registers b) m2.free_mem hf3 hfree3] at h3
    injection h3 with hm4 _ _
    obtain ⟨x, hx⟩ := hreg2
    rw [← hm4]
    simp [hx, Nat.mod_mod_of_dvd]

/-- Witness for C7: the three-instruction program of `allocMachine` allocates
a platter (identifier 1), deallocates it, allocates again, and the second
allocation returns the same identifier. -/
theorem alloc_policy_and_reuse_witness :
    fetched allocMachine = some (Operator.Alloc 1 2)
    ∧ step [] allocMachine = StepResult.next allocMachine2 [] []
    ∧ fetched allocMachine2 = some (Operator.Dealloc 1)
    ∧ step [] allocMachine2 = StepResult.next allocMachine3 [] []
    ∧ fetched allocMachine3 = some (Operator.Alloc 1 3)
    ∧ step [] allocMachine3 = StepResult.next allocMachine4 [] []
    ∧ allocMachine4.registers 1 = allocMachine2.registers 1
    ∧ allocMachine2.registers 1 = 1 :=
  ⟨by decide, rfl, by decide, rfl, by decide, rfl,
   alloc_policy_and_reuse.2 allocMachine allocMachine2 allocMachine3 allocMachine4
     [] [] [] [] [] [] [] [] [] 1 2 3 (by decide) rfl (by decide) rfl (by decide) rfl,
   by decide⟩

/-- C8: for the fetched Add, Mul and NAND instructions, the destination
register receives (R[B] + R[C]) mod 2^32, (R[B] * R[C]) mod 2^32, and the
32-bit bitwise complement of R[B] AND R[C] (every bit position below 32 is
flipped) respectively. -/
theorem add_mul_nand_semantics (input : List Nat) (m : UniversalMachine) (a b c : Fin 8) :
    (fetched m = some (Operator.Add a b c) →
      step input m =
        StepResult.next
          { m with instruction_pointer := m.instruction_pointer + 1,
                   registers :=
                     Function.update m.registers a ((m.registers b + m.registers c) % 2 ^ 32) }
          [] input)
    ∧ (fetched m = some (Operator.Mul a b c) →
      step input m =
        StepResult.next
          { m with instruction_pointer := m.instruction_pointer + 1,
                   registers :=
                     Function.update m.registers a ((m.registers b * m.registers c) % 2 ^ 32) }
          [] input)
    ∧ (fetched m = some (Operator.NotAnd a b c) →
      step input m =
        StepResult.next
          { m with instruction_pointer := m.instruction_pointer + 1,
                   registers :=
                     Function.update m.registers a
                       ((m.registers b &&& m.registers c) ^^^ (2 ^ 32 - 1)) }
          [] input
      ∧ ∀ i, i < 32 →
          ((m.registers b &&& m.registers c) ^^^ (2 ^ 32 - 1)).testBit i
            = !((m.registers b &&& m.registers c).testBit i)) := by
  refine ⟨fun hf => step_add input m a b c hf, fun hf => step_mul input m a b c hf,
    fun hf => ⟨step_notand input m a b c hf, fun i hi => ?_⟩⟩
  rw [Nat.testBit_xor]
  have hmask : (2 ^ 32 - 1 : Nat).testBit i = true := by
    rw [Nat.testBit_two_pow_sub_one]
    exact decide_eq_true hi
  rw [hmask, Bool.xor_true]

/-- Witness for C8 at `addMachine`: Add stores (3 + 4) mod 2^32 = 7. -/
theorem add_mul_nand_semantics_witness :
    fetched addMachine = some (Operator.Add 0 1 2)
    ∧ step [] addMachine =
        StepResult.next
          { addMachine with
              instruction_pointer := addMachine.instruction_pointer + 1,
              registers :=
                Function.update addMachine.registers 0
                  ((addMachine.registers 1 + addMachine.registers 2) % 2 ^ 32) } [] []
    ∧ (addMachine.registers 1 + addMachine.registers 2) % 2 ^ 32 = 7 :=
  ⟨by decide, (add_mul_nand_semantics [] addMachine 0 1 2).1 (by decide), by decide⟩

/-- C9: a word with opcode 13 decodes to Orthography with register index
(word >> 25) & 7 and immediate word & (2^25 - 1), a plain 25-bit unsigned
value with no further adjustment, and executing Orthography stores the
immediate into the register. -/
theorem orthography_decode_exec (w : Nat) (hw : w >>> 28 = 13) :
    Operator.fromU32 w =
      Operator.Immediate ⟨w >>> 25 &&& 7, Nat.lt_succ_of_le Nat.and_le_right⟩
        (w &&& (2 ^ 25 - 1))
    ∧ w &&& (2 ^ 25 - 1) < 2 ^ 25
    ∧ ∀ (input : List Nat) (m : UniversalMachine) (a : Fin 8) (v : Nat),
        fetched m = some (Operator.Immediate a v) →
        step input m =
          StepResult.next
            { m with instruction_pointer := m.instruction_pointer + 1,
                     registers := Function.update m.registers a v } [] input := by
  refine ⟨?_, ?_, fun input m a v hf => step_immediate input m a v hf⟩
  · simp only [Operator.fromU32]
    rw [hw]
    norm_num
  · exact Nat.lt_of_le_of_lt Nat.and_le_right (by norm_num)

/-- Witness for C9 at the word 0xD2003039: opcode 13, register 1, immediate
12345. -/
theorem orthography_decode_exec_witness :
    (0xD2003039 : Nat) >>> 28 = 13
    ∧ Operator.fromU32 0xD2003039 = Operator.Immediate 1 12345 :=
  ⟨by decide, ((orthography_decode_exec 0xD2003039 (by decide)).1).trans (by decide)⟩

/-- Helper for C10: a word built from four bytes is below 2^32. -/
theorem u32_from_be_bytes_lt (b0 b1 b2 b3 : Nat) :
    u32_from_be_bytes b0 b1 b2 b3 < 2 ^ 32 := by
  unfold u32_from_be_bytes
  have h0 : b0 % 256 < 256 := Nat.mod_lt _ (by norm_num)
  have h1 : b1 % 256 < 256 := Nat.mod_lt _ (by norm_num)
  have h2 : b2 % 256 < 256 := Nat.mod_lt _ (by norm_num)
  have h3 : b3 % 256 < 256 := Nat.mod_lt _ (by norm_num)
  omega

/-- C10 counterexample: a 5-byte image does not fail; the loader returns the
word of the first complete 4-byte group and drops the trailing byte, whereas
the spec loader rejects the image. -/
theorem loader_no_badimage_counterexample :
    read_program [0, 0, 0, 7, 9] = [7]
    ∧ ([0, 0, 0, 7, 9] : List Nat).length % 4 ≠ 0
    ∧ load_spec [0, 0, 0, 7, 9] = none := by decide

/-- C10 amended: for every byte stream (any byte count, with no failure
possible), the loader returns exactly one word per complete 4-byte group, in
input order, each the unsigned 32-bit big-endian value of its group; a
trailing group of fewer than 4 bytes is dropped. -/
theorem loader_words (bytes : List Nat) :
    (read_program bytes).length = bytes.length / 4
    ∧ (∀ i, i < bytes.length / 4 →
        (read_program bytes).get? i =
          some (u32_from_be_bytes (bytes.getD (4 * i) 0) (bytes.getD (4 * i + 1) 0)
            (bytes.getD (4 * i + 2) 0) (bytes.getD (4 * i + 3) 0)))
    ∧ ∀ w ∈ read_program bytes, w < 2 ^ 32 := by
  induction bytes using read_program.induct with
  | case1 b0 b1 b2 b3 rest ih =>
    obtain ⟨ihlen, ihget, ihlt⟩ := ih
    refine ⟨?_, ?_, ?_⟩
    · simp only [read_program, List.length_cons, ihlen]
      omega
    · intro i hi
      cases i with
      | zero => simp [read_program]
      | succ j =>
        have hlen4 : (b0 :: b1 :: b2 :: b3 :: rest).length / 4 = rest.length / 4 + 1 := by
          simp only [List.length_cons]
          omega
        have hj : j < rest.length / 4 := by omega
        have h4 : 4 * (j + 1) = 4 * j + 1 + 1 + 1 + 1 := by ring
        simp only [Nat.succ_eq_add_one, read_program, List.get?_cons_succ, h4,
          List.getD_cons_succ]
        exact ihget j hj
    · intro w hw
      simp only [read_program, List.mem_cons] at hw
      rcases hw with hw | hw
      · exact hw ▸ u32_from_be_bytes_lt b0 b1 b2 b3
      · exact ihlt w hw
  | case2 bytes hshape =>
    have hre : read_program bytes = [] := by
      match bytes, hshape with
      | [], _ => rfl
      | [b0], _ => rfl
      | [b0, b1], _ => rfl
      | [b0, b1, b2], _ => rfl
      | b0 :: b1 :: b2 :: b3 :: rest, h => exact absurd rfl (h b0 b1 b2 b3 rest)
    have hlen : bytes.length < 4 := by
      match bytes, hshape with
      | [], _ => simp
      | [b0], _ => simp
      | [b0, b1], _ => simp
      | [b0, b1, b2], _ => simp
      | b0 :: b1 :: b2 :: b3 :: rest, h => exact absurd rfl (h b0 b1 b2 b3 rest)
    refine ⟨?_, ?_, ?_⟩
    · rw [hre, Nat.div_eq_of_lt hlen]
      rfl
    · intro i hi
      rw [Nat.div_eq_of_lt hlen] at hi
      exact absurd hi (Nat.not_lt_zero i)
    · intro w hw
      rw [hre] at hw
      exact absurd hw (List.not_mem_nil w)

/-- Witness for C10 at the 5-byte image [0, 0, 0, 7, 9]: one word, the
big-endian value 7 of the first group. -/
theorem loader_words_witness :
    (read_program [0, 0, 0, 7, 9]).length = 1
    ∧ (read_program [0, 0, 0, 7, 9]).get? 0 = some 7 :=
  ⟨(loader_words [0, 0, 0, 7, 9]).1.trans (by decide),
   ((loader_words [0, 0, 0, 7, 9]).2.1 0 (by decide)).trans (by decide)⟩

end UM
